import Mathlib

/-!
Formal model of `extern/wechat.py`: the WeChat notification dispatch helper.

The module is embedded shallowly:

* Python values decoded from JSON are modelled by the inductive type `Json`.
* The transport effects of `_post_and_parse` (`json.dumps`, `requests.post`,
  `Response.json()`) are abstracted into an `HttpOutcome`: either one of the
  three transport failures, or a decoded `Json` response.  Every `try/except`
  block of the source is modelled by `Option` (`none` = the body raised).
* Python `set` values from the configuration are modelled by their element
  lists; all operations on them are membership-based, so the representation
  is irrelevant.
* Python's string order (lexicographic on code points) is modelled by
  `charsLe`, and `sorted` by `List.insertionSort` over that order.
* `datetime` values are modelled as integer timestamps in seconds, and
  `timedelta` as an integer number of seconds.
-/

namespace Wechat

/-- A recipient identifier, `str | int` in the source. -/
abbrev Ident := String ⊕ Int

/-- Python `str()` applied to an identifier. -/
def identStr : Ident → String
  | .inl s => s
  | .inr n => toString n

/-- Lexicographic comparison of code-point lists: Python's `<=` on strings. -/
def charsLe : List Char → List Char → Bool
  | [], _ => true
  | _ :: _, [] => false
  | a :: as, b :: bs =>
    if a.val.toNat < b.val.toNat then true
    else if b.val.toNat < a.val.toNat then false
    else charsLe as bs

/-- Python's `<=` on strings, as a proposition usable by `List.insertionSort`. -/
def StrLE (a b : String) : Prop := charsLe a.data b.data = true

instance : DecidableRel StrLE := fun a b =>
  inferInstanceAs (Decidable (charsLe a.data b.data = true))

/-- The read-only module configuration `wechat_config` (`CONFIG` in the source). -/
structure Config where
  /-- `CONFIG.receivers`: optional allow-list of user ids (a Python set). -/
  receivers : Option (List String)
  /-- `CONFIG.blacklist`: block-list of user ids (a Python set). -/
  blacklist : List String
  /-- `CONFIG.multithread`: whether deferred dispatch is enabled. -/
  multithread : Bool
  /-- `CONFIG.retry`: whether retrying is enabled. -/
  retry : Bool
  /-- `CONFIG.send_batch`: maximum batch size. -/
  send_batch : Nat
  /-- `CONFIG.hasher.encode`: the secret-hashing function. -/
  hasher : String → String

/-- `_get_available_users`: normalize ids with `str`, deduplicate (`set`),
intersect with the allow-list when configured, subtract the block-list when
non-empty (Python set truthiness), and sort. -/
def _get_available_users (cfg : Config) (users : List Ident) : List String :=
  let u1 := (users.map identStr).dedup
  let u2 := match cfg.receivers with
    | some recv => u1.filter (fun x => x ∈ recv)
    | none => u1
  let u3 := if cfg.blacklist ≠ [] then u2.filter (fun x => x ∉ cfg.blacklist) else u2
  u3.insertionSort StrLE

/-- A decoded JSON value (what `Response.json()` can return). -/
inductive Json where
  | null
  | bool (b : Bool)
  | num (n : Int)
  | str (s : String)
  | arr (elems : List Json)
  | obj (fields : List (String × Json))

/-- Python `d[k]` / `d.get(k)` on a decoded dict, `none` when the key is
missing or the value is not a dict (in which case indexing raises). -/
def Json.getKey : Json → String → Option Json
  | .obj fields, k => fields.lookup k
  | _, _ => none

/-- Python truthiness of a decoded JSON value. -/
def Json.truthy : Json → Bool
  | .null => false
  | .bool b => b
  | .num n => n != 0
  | .str s => !s.isEmpty
  | .arr elems => !elems.isEmpty
  | .obj fields => !fields.isEmpty

/-- Python `==` between a decoded JSON value and an int literal
(`response["status"] == 200`); a Python `bool` is an int. -/
def Json.eqNum (j : Json) (m : Int) : Bool :=
  match j with
  | .num n => n == m
  | .bool b => (if b then (1 : Int) else 0) == m
  | _ => false

/-- Python `x[i]` for a non-negative index on a decoded list (or string),
`none` when it raises. -/
def Json.index : Json → Nat → Option Json
  | .arr elems, i => elems.get? i
  | .str s, i => (s.data.get? i).map (fun c => .str (String.mk [c]))
  | _, _ => none

/-- Python dict assignment `d[k] = v` on a field list: update in place if the
key exists (preserving position), else append. -/
def setField : List (String × Json) → String → Json → List (String × Json)
  | [], k, v => [(k, v)]
  | (k', v') :: rest, k, v =>
    if k' == k then (k', v) :: rest else (k', v') :: setField rest k v

/-- Python dict assignment `d[k] = v`; on a non-dict it raises, which never
happens in the source (the payload is always a dict), so it is the identity. -/
def Json.setKey : Json → String → Json → Json
  | .obj fields, k, v => .obj (setField fields k v)
  | j, _, _ => j

/-- The result type of `_post_and_parse`: an error message (`None` on
success) and a list of retry-eligible users (`None` on hard failure). -/
abbrev ParseResult := Option Json × Option (List Json)

/-- What the environment does with one HTTP post: one of the three transport
failures of `_post_and_parse` (`json.dumps` raises, `requests.post` raises,
`Response.json()` raises), or a decoded response. -/
inductive HttpOutcome where
  | encodeError
  | connectError
  | decodeError
  | ok (response : Json)

/-- The final `try` block of `_post_and_parse`, interpreting a decoded
response; `none` means the body raised.  A detail parser of `none` models the
Python argument `detail_parser=None` (the `assert` then raises), and a parser
returning `none` models the parser itself raising. -/
def interpretResponse (response : Json)
    (dp : Option (Json → Option ParseResult)) : Option ParseResult :=
  match response.getKey "status" with
  | none => none
  | some status =>
    if status.eqNum 200 then
      some (none, some [])
    else
      match response.getKey "data" with
      | some (Json.obj fields) =>
        match fields.lookup "detail" with
        | some d =>
          if d.truthy then
            match dp with
            | some p => p d
            | none => none
          else
            match fields.lookup "errMsg" with
            | some m => some (some m, none)
            | none => none
        | none =>
          match fields.lookup "errMsg" with
          | some m => some (some m, none)
          | none => none
      | _ => none

/-- `_post_and_parse`: each transport failure yields its distinct hard-failure
message; a decoded response is interpreted, and any exception during
interpretation is caught and converted to the generic hard failure. -/
def _post_and_parse (outcome : HttpOutcome)
    (dp : Option (Json → Option ParseResult)) : ParseResult :=
  match outcome with
  | .encodeError => (some (.str "JSON编码失败"), none)
  | .connectError => (some (.str "连接API失败"), none)
  | .decodeError => (some (.str "JSON解析失败"), none)
  | .ok response => (interpretResponse response dp).getD (some (.str "回应解析失败"), none)

/-- The local `_parser` of `_send_wechat`: `retrys = [x[0] for x in detail]`,
`errmsg = detail[0][1]`; `none` when any of those indexings raises (detail not
a decoded list, an entry not indexable, or `detail` empty). -/
def sendDetailParser (detail : Json) : Option ParseResult :=
  match detail with
  | .arr entries =>
    match entries.mapM (fun x => x.index 0) with
    | none => none
    | some retrys =>
      match (Json.arr entries).index 0 with
      | none => none
      | some e0 =>
        match e0.index 1 with
        | none => none
        | some errmsg => some (some errmsg, some retrys)
  | _ => none

/-- The `post_data` dict built by `_send_wechat` (insertion order preserved). -/
def mkPostData (cfg : Config) (users : List String) (message : String)
    (card : Bool) (url btntxt : Option String) : Json :=
  let base := [("touser", Json.arr (users.map Json.str)),
               ("content", Json.str message),
               ("toall", Json.bool true),
               ("secret", Json.str (cfg.hasher message))]
  let cardFields :=
    if card then
      [("card", Json.bool true)]
        ++ (match url with | some u => [("url", Json.str u)] | none => [])
        ++ (match btntxt with | some b => [("btntxt", Json.str b)] | none => [])
    else []
  Json.obj (base ++ cardFields)

/-- The retry loop of `_send_wechat` (`for i in range(retry_times)`), with the
outcome of the `i`-th post supplied by the environment `env`.  It returns the
trace of payloads posted, one per `_post_and_parse` attempt: on success or on
hard failure (retry list `None`) the loop breaks after the attempt; on partial
failure the payload's `"touser"` field is replaced by the retry list and the
loop continues. -/
def sendLoop (env : Nat → HttpOutcome) : Nat → Nat → Json → List Json
  | 0, _, _ => []
  | fuel + 1, i, post_data =>
    match _post_and_parse (env i) (some sendDetailParser) with
    | (none, _) => [post_data]
    | (some _, none) => [post_data]
    | (some _, some retrys) =>
      post_data :: sendLoop env fuel (i + 1) (post_data.setKey "touser" (.arr retrys))

/-- `_log_users`: the full comma-separated list for at most 10 users,
otherwise the first three entries, an ellipsis marker and the last three
entries (`users[-3:]`), followed by the total count. -/
def _log_users (users : List String) : String :=
  if users.length ≤ 10 then String.intercalate ", " users
  else
    String.intercalate ", " (users.take 3 ++ ["..."] ++ users.drop (users.length - 3))
      ++ "等" ++ toString users.length ++ "用户"

/-- `_send_wechat`: build the payload and run the retry loop; the result is
the trace of payloads posted. -/
def _send_wechat (cfg : Config) (env : Nat → HttpOutcome) (users : List String)
    (message : String) (card : Bool) (url btntxt : Option String)
    (retry_times : Nat) : List Json :=
  sendLoop env retry_times 0 (mkPostData cfg users message card url btntxt)

/-- Structural worker for the batch slicing: `fuel` bounds the recursion depth
and is initialised to the list length, which suffices for a positive `k`. -/
def chunkAux (k : Nat) : Nat → List String → List (List String)
  | _, [] => []
  | 0, _ :: _ => []
  | fuel + 1, x :: xs => (x :: xs).take k :: chunkAux k fuel ((x :: xs).drop k)

/-- The batch slices `users[i : i + k]` for `i in range(0, len(users), k)`.
Python raises `ValueError` for step `k = 0`; the claims only concern a
positive configured batch size, so that case returns no batches here. -/
def chunkBatches (k : Nat) (l : List String) : List (List String) :=
  if k = 0 then [] else chunkAux k l.length l

/-- The observable behaviour of `send_wechat` on its recipients: either the
early return with the `'没有可用用户'` warning, or the list of per-batch
recipient lists handed to the (possibly deferred) low-level sender. -/
inductive SendOutcome where
  | warnedNoUsers
  | dispatched (batches : List (List String))

/-- `send_wechat`, projected to recipient handling: filter the users, warn and
return if none survive, else dispatch one call per batch slice.  (Card-default
filling and URL building only affect other payload fields and are omitted.) -/
def send_wechat (cfg : Config) (users : List Ident) : SendOutcome :=
  let us := _get_available_users cfg users
  if us.isEmpty then .warnedNoUsers
  else .dispatched (chunkBatches cfg.send_batch us)

/-- The `next_run_time` argument of `_get_caller`:
`datetime | timedelta | None`. -/
inductive NextRunArg where
  | absolute (t : Int)
  | relative (d : Int)
  | unspecified

/-- The `_next_run` computed inside the wrapper `_func` at invocation time:
the given datetime, now plus the given timedelta, or now plus the default
`timedelta(seconds=5)`. -/
def computeNextRun (now : Int) : NextRunArg → Int
  | .absolute t => t
  | .relative d => now + d
  | .unspecified => now + 5

/-- What `_get_caller` returns: the function itself (synchronous call), or the
scheduling wrapper `_func` remembering `next_run_time`. -/
inductive Caller (α : Type) where
  | direct (f : Unit → α)
  | deferred (next_run_time : NextRunArg)

/-- `_get_caller`: when multithreading is disabled by the caller or by the
configuration, return the function itself; otherwise return the wrapper. -/
def _get_caller {α : Type} (cfg : Config) (f : Unit → α) (multithread : Bool)
    (next_run_time : NextRunArg) : Caller α :=
  if !(multithread && cfg.multithread) then .direct f
  else .deferred next_run_time

/-- The effect of invoking a caller: running the function inline and getting
its result, or registering a one-shot scheduler job at a target time. -/
inductive CallAction (α : Type) where
  | ran (result : α)
  | scheduled (next_run : Int)

/-- Invoking the value returned by `_get_caller`: a direct caller runs the
function synchronously; the wrapper computes `_next_run` from the current
time and registers a `"date"` job with the external scheduler. -/
def invokeCaller {α : Type} (now : Int) : Caller α → CallAction α
  | .direct f => .ran (f ())
  | .deferred spec => .scheduled (computeNextRun now spec)

/-! Concrete fixtures used in the claims' witnesses. -/

/-- A configuration with allow-list `{"1","2"}` and block-list `{"2"}`. -/
def cfgAllow12Block2 : Config :=
  { receivers := some ["1", "2"], blacklist := ["2"], multithread := true,
    retry := true, send_batch := 10, hasher := fun s => s }

/-- A configuration with an empty allow-list: every recipient filters away. -/
def cfgNobody : Config :=
  { receivers := some [], blacklist := [], multithread := true,
    retry := true, send_batch := 10, hasher := fun s => s }

/-- An unrestricted configuration with batch size 2. -/
def cfgBatch2 : Config :=
  { receivers := none, blacklist := [], multithread := true,
    retry := true, send_batch := 2, hasher := fun s => s }

/-- A decoded response reporting recipient `"u1"` as retry-eligible on every
attempt: status 400 with `data.detail = [["u1", "fail"]]`. -/
def respRetryU1 : Json :=
  .obj [("status", .num 400),
        ("data", .obj [("detail", .arr [.arr [.str "u1", .str "fail"]])])]

/-- A decoded response with `data.detail = [["u1","fail"], ["u2","fail"]]`. -/
def respDetailU1U2 : Json :=
  .obj [("status", .num 400),
        ("data", .obj [("detail", .arr [.arr [.str "u1", .str "fail"],
                                        .arr [.str "u2", .str "fail"]])])]

/-! Lemmas about the string order. -/

theorem charsLe_total (as : List Char) :
    ∀ bs, charsLe as bs = true ∨ charsLe bs as = true := by
  induction as with
  | nil => intro bs; left; rfl
  | cons a as ih =>
    intro bs
    cases bs with
    | nil => right; rfl
    | cons b bs =>
      by_cases h1 : a.val.toNat < b.val.toNat
      · left; simp [charsLe, h1]
      · by_cases h2 : b.val.toNat < a.val.toNat
        · right; simp [charsLe, h2]
        · have h3 : a.val.toNat = b.val.toNat := by omega
          rcases ih bs with h | h <;> simp [charsLe, h1, h2, h3, h]

theorem charsLe_trans (as : List Char) :
    ∀ bs cs, charsLe as bs = true → charsLe bs cs = true → charsLe as cs = true := by
  induction as with
  | nil => intro bs cs _ _; rfl
  | cons a as ih =>
    intro bs cs hab hbc
    cases bs with
    | nil => simp [charsLe] at hab
    | cons b bs =>
      cases cs with
      | nil => simp [charsLe] at hbc
      | cons c cs =>
        simp only [charsLe] at hab hbc ⊢
        split_ifs at hab hbc ⊢ <;> first
          | rfl
          | omega
          | exact ih bs cs hab hbc

instance : IsTotal String StrLE :=
  ⟨fun a b => charsLe_total a.data b.data⟩

instance : IsTrans String StrLE :=
  ⟨fun a b c hab hbc => charsLe_trans a.data b.data c.data hab hbc⟩

/-! Lemmas about `_get_available_users`. -/

/-- Membership in the filtered user list. -/
theorem mem_get_available_users (cfg : Config) (users : List Ident) (x : String) :
    x ∈ _get_available_users cfg users ↔
      (∃ u ∈ users, identStr u = x)
      ∧ (∀ recv, cfg.receivers = some recv → x ∈ recv)
      ∧ (cfg.blacklist ≠ [] → x ∉ cfg.blacklist) := by
  unfold _get_available_users
  rw [List.mem_insertionSort]
  cases hr : cfg.receivers with
  | none =>
    by_cases hb : cfg.blacklist = [] <;>
      simp [hb, List.mem_filter, List.mem_dedup, List.mem_map]
  | some recv =>
    by_cases hb : cfg.blacklist = [] <;>
      simp [hb, List.mem_filter, List.mem_dedup, List.mem_map, and_assoc] <;>
      tauto

theorem sorted_get_available_users (cfg : Config) (users : List Ident) :
    (_get_available_users cfg users).Sorted StrLE :=
  List.sorted_insertionSort StrLE _

theorem nodup_get_available_users (cfg : Config) (users : List Ident) :
    (_get_available_users cfg users).Nodup := by
  unfold _get_available_users
  apply ((List.perm_insertionSort StrLE _).symm).nodup
  have h1 : ((users.map identStr).dedup).Nodup := List.nodup_dedup _
  have h2 : (match cfg.receivers with
      | some recv => ((users.map identStr).dedup).filter (fun x => x ∈ recv)
      | none => (users.map identStr).dedup).Nodup := by
    cases cfg.receivers with
    | none => exact h1
    | some recv => exact h1.filter _
  by_cases hb : cfg.blacklist = []
  · simp only [hb, ne_eq, not_true_eq_false, if_false]
    exact h2
  · rw [if_pos hb]
    exact h2.filter _

/-- A sorted, duplicate-free list whose members already pass the allow-list
and block-list checks is a fixed point of `_get_available_users`. -/
theorem get_available_users_of_canonical (cfg : Config) (l : List String)
    (hs : l.Sorted StrLE) (hnd : l.Nodup)
    (hrecv : ∀ x ∈ l, ∀ recv, cfg.receivers = some recv → x ∈ recv)
    (hbl : ∀ x ∈ l, cfg.blacklist ≠ [] → x ∉ cfg.blacklist) :
    _get_available_users cfg (l.map Sum.inl) = l := by
  have e1 : (l.map Sum.inl).map identStr = l := by
    simp [List.map_map, Function.comp_def, identStr]
  unfold _get_available_users
  dsimp only
  rw [e1, List.dedup_eq_self.mpr hnd]
  cases hr : cfg.receivers with
  | none =>
    dsimp only
    by_cases hb : cfg.blacklist = []
    · simp only [hb, ne_eq, not_true_eq_false, if_false]
      exact hs.insertionSort_eq
    · rw [if_pos hb, List.filter_eq_self.mpr (fun a ha => by simp [hbl a ha hb])]
      exact hs.insertionSort_eq
  | some recv =>
    dsimp only
    have hfr : List.filter (fun x => decide (x ∈ recv)) l = l :=
      List.filter_eq_self.mpr (fun a ha => by simp [hrecv a ha recv hr])
    by_cases hb : cfg.blacklist = []
    · simp only [hb, ne_eq, not_true_eq_false, if_false]
      rw [hfr]
      exact hs.insertionSort_eq
    · rw [if_pos hb, hfr, List.filter_eq_self.mpr (fun a ha => by simp [hbl a ha hb])]
      exact hs.insertionSort_eq

/-- C4: for every input list of string-or-integer identifiers, the user filter
returns a sorted, duplicate-free list of strings; every output element is the
string form of some input element; membership in the output is exactly:
being the string form of an input element, belonging to the allow-list when
one is configured, and avoiding the block-list when it is non-empty.
Concretely, with allow-list `{"1","2"}` and block-list `{"2"}`, filtering
`[1, 2, 2, 3]` yields `["1"]`. -/
theorem c4_user_filter_contract (cfg : Config) (users : List Ident) :
    (_get_available_users cfg users).Sorted StrLE
    ∧ (_get_available_users cfg users).Nodup
    ∧ (∀ x ∈ _get_available_users cfg users, ∃ u ∈ users, identStr u = x)
    ∧ (∀ x, x ∈ _get_available_users cfg users ↔
        (∃ u ∈ users, identStr u = x)
        ∧ (∀ recv, cfg.receivers = some recv → x ∈ recv)
        ∧ (cfg.blacklist ≠ [] → x ∉ cfg.blacklist))
    ∧ _get_available_users cfgAllow12Block2 [.inr 1, .inr 2, .inr 2, .inr 3] = ["1"] := by
  refine ⟨sorted_get_available_users cfg users, nodup_get_available_users cfg users,
    fun x hx => ((mem_get_available_users cfg users x).mp hx).1,
    fun x => mem_get_available_users cfg users x, by decide⟩

/-- C4 witness: the theorem applied to the concrete allow/block configuration
of the claim, discharging the output-membership hypothesis at `"1"`. -/
theorem c4_user_filter_contract_witness :
    ∃ u ∈ ([.inr 1, .inr 2, .inr 2, .inr 3] : List Ident), identStr u = "1" :=
  (c4_user_filter_contract cfgAllow12Block2 [.inr 1, .inr 2, .inr 2, .inr 3]).2.2.1
    "1" (by decide)

/-- C9: the user filter is idempotent: feeding its output (as string
identifiers) back into it returns the same list. -/
theorem c9_user_filter_idempotent (cfg : Config) (users : List Ident) :
    _get_available_users cfg ((_get_available_users cfg users).map Sum.inl)
      = _get_available_users cfg users := by
  apply get_available_users_of_canonical cfg _
    (sorted_get_available_users cfg users) (nodup_get_available_users cfg users)
  · intro x hx recv hr
    exact ((mem_get_available_users cfg users x).mp hx).2.1 recv hr
  · intro x hx hb
    exact ((mem_get_available_users cfg users x).mp hx).2.2 hb

/-! Claims about the request/response interpreter. -/

/-- C2: the interpreter maps response shapes to results as follows: a decoded
response whose `status` equals 200 yields `(none, [])`; a decoded response
whose `data` carries a truthy `detail` yields exactly what the supplied detail
parser produces on it; any other decoded response carrying `data.errMsg`
yields that message as a hard failure with no retry list.  Concretely,
`{"status": 200}` yields `(none, [])`; `{"status": 400, "data": {"errMsg":
"bad"}}` yields `("bad", none)`; a response with `data.detail =
[["u1","fail"], ["u2","fail"]]` yields `("fail", ["u1","u2"])` via the batch
parser. -/
theorem c2_response_shape_mapping :
    (∀ dp r status, r.getKey "status" = some status → status.eqNum 200 = true →
      _post_and_parse (.ok r) dp = (none, some []))
    ∧ (∀ p r status fields d res, r.getKey "status" = some status →
        status.eqNum 200 = false → r.getKey "data" = some (.obj fields) →
        fields.lookup "detail" = some d → d.truthy = true → p d = some res →
        _post_and_parse (.ok r) (some p) = res)
    ∧ (∀ dp r status fields m, r.getKey "status" = some status →
        status.eqNum 200 = false → r.getKey "data" = some (.obj fields) →
        (fields.lookup "detail" = none
          ∨ ∃ d, fields.lookup "detail" = some d ∧ d.truthy = false) →
        fields.lookup "errMsg" = some m →
        _post_and_parse (.ok r) dp = (some m, none))
    ∧ (∀ dp, _post_and_parse (.ok (.obj [("status", .num 200)])) dp = (none, some []))
    ∧ (∀ dp, _post_and_parse
        (.ok (.obj [("status", .num 400), ("data", .obj [("errMsg", .str "bad")])])) dp
        = (some (.str "bad"), none))
    ∧ _post_and_parse (.ok respDetailU1U2) (some sendDetailParser)
        = (some (.str "fail"), some [.str "u1", .str "u2"]) := by
  refine ⟨?_, ?_, ?_, fun dp => rfl, fun dp => rfl, rfl⟩
  · intro dp r status h1 h2
    simp [_post_and_parse, interpretResponse, h1, h2]
  · intro p r status fields d res h1 h2 h3 h4 h5 h6
    simp [_post_and_parse, interpretResponse, h1, h2, h3, h4, h5, h6]
  · intro dp r status fields m h1 h2 h3 h4 h5
    rcases h4 with h4 | ⟨d, hd, hdt⟩
    · simp [_post_and_parse, interpretResponse, h1, h2, h3, h4, h5]
    · simp [_post_and_parse, interpretResponse, h1, h2, h3, hd, hdt, h5]

/-- C2 witness: the general success, detail-parser, and errMsg cases of the
theorem applied at the concrete responses of the claim. -/
theorem c2_response_shape_mapping_witness :
    _post_and_parse (.ok (.obj [("status", .num 200)])) none = (none, some [])
    ∧ _post_and_parse (.ok respDetailU1U2) (some sendDetailParser)
        = (some (.str "fail"), some [.str "u1", .str "u2"])
    ∧ _post_and_parse
        (.ok (.obj [("status", .num 400), ("data", .obj [("errMsg", .str "bad")])])) none
        = (some (.str "bad"), none) :=
  ⟨c2_response_shape_mapping.1 none (.obj [("status", .num 200)]) (.num 200) rfl rfl,
   c2_response_shape_mapping.2.1 sendDetailParser respDetailU1U2 (.num 400)
     [("detail", .arr [.arr [.str "u1", .str "fail"], .arr [.str "u2", .str "fail"]])]
     (.arr [.arr [.str "u1", .str "fail"], .arr [.str "u2", .str "fail"]])
     (some (.str "fail"), some [.str "u1", .str "u2"]) rfl rfl rfl rfl rfl rfl,
   c2_response_shape_mapping.2.2.1 none
     (.obj [("status", .num 400), ("data", .obj [("errMsg", .str "bad")])]) (.num 400)
     [("errMsg", .str "bad")] (.str "bad") rfl rfl rfl (Or.inl rfl) rfl⟩

/-- C3: the interpreter never propagates an exception: JSON-encoding failure,
connection failure and response-decoding failure return three distinct
hard-failure messages with no retry list, and any exception raised while
interpreting a decoded response (`interpretResponse` evaluating to `none`,
which covers a raising detail parser and the missing-parser assertion) is
converted to the generic response-parsing-failed hard failure. -/
theorem c3_no_exception_propagation :
    (∀ dp, _post_and_parse .encodeError dp = (some (.str "JSON编码失败"), none))
    ∧ (∀ dp, _post_and_parse .connectError dp = (some (.str "连接API失败"), none))
    ∧ (∀ dp, _post_and_parse .decodeError dp = (some (.str "JSON解析失败"), none))
    ∧ (∀ r dp, interpretResponse r dp = none →
        _post_and_parse (.ok r) dp = (some (.str "回应解析失败"), none))
    ∧ ("JSON编码失败" ≠ "连接API失败" ∧ "JSON编码失败" ≠ "JSON解析失败"
        ∧ "连接API失败" ≠ "JSON解析失败" ∧ "JSON编码失败" ≠ "回应解析失败"
        ∧ "连接API失败" ≠ "回应解析失败" ∧ "JSON解析失败" ≠ "回应解析失败") := by
  refine ⟨fun dp => rfl, fun dp => rfl, fun dp => rfl, ?_, by decide⟩
  intro r dp h
  simp [_post_and_parse, h]

/-- C3 witness: the caught-interpretation-exception case applied to the
response `null` with no detail parser. -/
theorem c3_no_exception_propagation_witness :
    _post_and_parse (.ok .null) none = (some (.str "回应解析失败"), none) :=
  c3_no_exception_propagation.2.2.2.1 .null none rfl

/-- C10: a decoded response whose status is present but not 200 and whose
`data` dict carries a truthy `detail`, interpreted with `detail_parser =
None`, does not raise: the failed internal `assert` is swallowed by the
catch-all handler and the generic response-parsing-failed hard failure is
returned. -/
theorem c10_none_parser_assert_swallowed (r status : Json)
    (fields : List (String × Json)) (d : Json)
    (h1 : r.getKey "status" = some status) (h2 : status.eqNum 200 = false)
    (h3 : r.getKey "data" = some (.obj fields))
    (h4 : fields.lookup "detail" = some d) (h5 : d.truthy = true) :
    _post_and_parse (.ok r) none = (some (.str "回应解析失败"), none) := by
  simp [_post_and_parse, interpretResponse, h1, h2, h3, h4, h5]

/-- C10 witness: the theorem applied to the concrete partial-failure response
with a single detail entry. -/
theorem c10_none_parser_assert_swallowed_witness :
    _post_and_parse (.ok respRetryU1) none = (some (.str "回应解析失败"), none) :=
  c10_none_parser_assert_swallowed respRetryU1 (.num 400)
    [("detail", .arr [.arr [.str "u1", .str "fail"]])]
    (.arr [.arr [.str "u1", .str "fail"]]) rfl rfl rfl rfl rfl

/-! Lemmas about batch slicing. -/

theorem chunkAux_flatten (k : Nat) (hk : 0 < k) :
    ∀ fuel (l : List String), l.length ≤ fuel → (chunkAux k fuel l).flatten = l := by
  intro fuel
  induction fuel with
  | zero =>
    intro l hl
    cases l with
    | nil => rfl
    | cons x xs => simp at hl
  | succ fuel ih =>
    intro l hl
    cases l with
    | nil => rfl
    | cons x xs =>
      simp only [chunkAux, List.flatten_cons]
      rw [ih ((x :: xs).drop k)
        (by simp only [List.length_drop, List.length_cons] at hl ⊢; omega)]
      exact List.take_append_drop k (x :: xs)

theorem chunkAux_length_le (k : Nat) :
    ∀ fuel (l : List String), ∀ b ∈ chunkAux k fuel l, b.length ≤ k := by
  intro fuel
  induction fuel with
  | zero =>
    intro l b hb
    cases l <;> simp [chunkAux] at hb
  | succ fuel ih =>
    intro l b hb
    cases l with
    | nil => simp [chunkAux] at hb
    | cons x xs =>
      simp only [chunkAux, List.mem_cons] at hb
      rcases hb with rfl | hb
      · simp [List.length_take]
      · exact ih _ b hb

theorem chunkAux_subset (k : Nat) :
    ∀ fuel (l : List String), ∀ b ∈ chunkAux k fuel l, ∀ x ∈ b, x ∈ l := by
  intro fuel
  induction fuel with
  | zero =>
    intro l b hb
    cases l <;> simp [chunkAux] at hb
  | succ fuel ih =>
    intro l b hb x hx
    cases l with
    | nil => simp [chunkAux] at hb
    | cons y ys =>
      simp only [chunkAux, List.mem_cons] at hb
      rcases hb with rfl | hb
      · exact List.take_subset k (y :: ys) hx
      · exact List.drop_subset k (y :: ys) (ih _ b hb x hx)

/-! Claims about `send_wechat` dispatch. -/

/-- C5: for a positive configured batch size, every batch handed to the
low-level sender consists only of users from the filtered request, the batches
together concatenate to exactly the filtered list, and no batch exceeds the
configured maximum size. -/
theorem c5_batch_invariants (cfg : Config) (users : List Ident)
    (hk : 0 < cfg.send_batch) :
    ∀ bs, send_wechat cfg users = .dispatched bs →
      (∀ b ∈ bs, ∀ x ∈ b, x ∈ _get_available_users cfg users)
      ∧ bs.flatten = _get_available_users cfg users
      ∧ (∀ b ∈ bs, b.length ≤ cfg.send_batch) := by
  intro bs hd
  simp only [send_wechat] at hd
  by_cases he : (_get_available_users cfg users).isEmpty
  · rw [if_pos he] at hd
    exact absurd hd (by simp)
  · rw [if_neg he] at hd
    injection hd with hd
    subst hd
    unfold chunkBatches
    rw [if_neg (by omega)]
    exact ⟨fun b hb x hx => chunkAux_subset cfg.send_batch _ _ b hb x hx,
      chunkAux_flatten cfg.send_batch hk _ _ le_rfl,
      fun b hb => chunkAux_length_le cfg.send_batch _ _ b hb⟩

/-- C5 witness: the theorem applied to an unrestricted configuration with
batch size 2 and three recipients, yielding batches `[["a","b"], ["c"]]`. -/
theorem c5_batch_invariants_witness :
    (∀ b ∈ [["a", "b"], ["c"]], ∀ x ∈ b,
      x ∈ _get_available_users cfgBatch2 [.inl "a", .inl "b", .inl "c"])
    ∧ ([["a", "b"], ["c"]] : List (List String)).flatten
        = _get_available_users cfgBatch2 [.inl "a", .inl "b", .inl "c"]
    ∧ (∀ b ∈ [["a", "b"], ["c"]], b.length ≤ cfgBatch2.send_batch) :=
  c5_batch_invariants cfgBatch2 [.inl "a", .inl "b", .inl "c"] (by decide)
    [["a", "b"], ["c"]] (by rfl)

/-- C7: when every recipient filters away, `send_wechat` only logs the
no-available-users warning and returns: no batch is dispatched (hence no HTTP
post and no scheduled job). -/
theorem c7_empty_filter_noop (cfg : Config) (users : List Ident)
    (h : _get_available_users cfg users = []) :
    send_wechat cfg users = .warnedNoUsers
    ∧ ∀ bs, send_wechat cfg users ≠ .dispatched bs := by
  unfold send_wechat
  simp [h]

/-- C7 witness: the theorem applied to a configuration whose allow-list is
empty, so the sole requested recipient filters away. -/
theorem c7_empty_filter_noop_witness :
    send_wechat cfgNobody [.inl "a"] = .warnedNoUsers
    ∧ ∀ bs, send_wechat cfgNobody [.inl "a"] ≠ .dispatched bs :=
  c7_empty_filter_noop cfgNobody [.inl "a"] (by decide)

/-- C6: when deferred dispatch is requested and enabled, invoking the wrapper
returned by `_get_caller` registers a scheduler job (never runs the callable
inline) whose target time is the supplied absolute time, now plus the supplied
delay, or now plus the default 5-second delay; when disabled by the caller or
the configuration, `_get_caller` returns the callable itself, which runs
synchronously and returns its result. -/
theorem c6_deferred_caller {α : Type} (cfg : Config) (f : Unit → α)
    (mt : Bool) (now : Int) :
    ((mt && cfg.multithread) = true →
      (∀ t, invokeCaller now (_get_caller cfg f mt (.absolute t)) = .scheduled t)
      ∧ (∀ d, invokeCaller now (_get_caller cfg f mt (.relative d)) = .scheduled (now + d))
      ∧ invokeCaller now (_get_caller cfg f mt .unspecified) = .scheduled (now + 5)
      ∧ (∀ spec a, invokeCaller now (_get_caller cfg f mt spec) ≠ .ran a))
    ∧ ((mt && cfg.multithread) = false →
      ∀ spec, invokeCaller now (_get_caller cfg f mt spec) = .ran (f ())) := by
  constructor
  · intro h
    refine ⟨fun t => ?_, fun d => ?_, ?_, fun spec a => ?_⟩ <;>
      simp [_get_caller, h, invokeCaller, computeNextRun]
  · intro h spec
    simp [_get_caller, h, invokeCaller]

/-- C6 witness: with multithreading enabled, a 10-second delay schedules a job
at now + 10 and nothing runs inline; with it disabled, the callable runs
synchronously and its result is returned. -/
theorem c6_deferred_caller_witness :
    invokeCaller 0 (_get_caller cfgBatch2 (fun _ => (7 : Nat)) true (.relative 10))
      = .scheduled (0 + 10)
    ∧ (∀ a, invokeCaller 0 (_get_caller cfgBatch2 (fun _ => (7 : Nat)) true (.relative 10))
        ≠ .ran a)
    ∧ invokeCaller 0 (_get_caller cfgBatch2 (fun _ => (7 : Nat)) false .unspecified)
      = .ran 7 :=
  ⟨((c6_deferred_caller cfgBatch2 (fun _ => (7 : Nat)) true 0).1 rfl).2.1 10,
   fun a => ((c6_deferred_caller cfgBatch2 (fun _ => (7 : Nat)) true 0).1 rfl).2.2.2
     (.relative 10) a,
   (c6_deferred_caller cfgBatch2 (fun _ => (7 : Nat)) false 0).2 rfl .unspecified⟩

/-- Associativity of string concatenation (via the underlying char lists). -/
theorem string_append_assoc : ∀ a b c : String, a ++ b ++ c = a ++ (b ++ c)
  | ⟨d1⟩, ⟨d2⟩, ⟨d3⟩ => congrArg String.mk (List.append_assoc d1 d2 d3)

/-- C8: the log listing is the full comma-separated list for at most 10 users,
and otherwise exactly the first three entries, an ellipsis marker, the last
three entries and the total count; in particular for 11 users it shows 3 head
entries, the ellipsis, 3 tail entries, and the count 11. -/
theorem c8_log_listing :
    (∀ users : List String, users.length ≤ 10 →
      _log_users users = String.intercalate ", " users)
    ∧ (∀ users : List String, 10 < users.length →
      _log_users users
        = String.intercalate ", " (users.take 3 ++ ["..."] ++ users.drop (users.length - 3))
          ++ "等" ++ toString users.length ++ "用户")
    ∧ (∀ x1 x2 x3 x4 x5 x6 x7 x8 x9 x10 x11 : String,
      _log_users [x1, x2, x3, x4, x5, x6, x7, x8, x9, x10, x11]
        = String.intercalate ", " [x1, x2, x3, "...", x9, x10, x11] ++ "等11用户") := by
  refine ⟨fun users h => ?_, fun users h => ?_,
    fun x1 x2 x3 x4 x5 x6 x7 x8 x9 x10 x11 => ?_⟩
  · unfold _log_users
    rw [if_pos h]
  · unfold _log_users
    rw [if_neg (by omega)]
  · have hlen : [x1, x2, x3, x4, x5, x6, x7, x8, x9, x10, x11].length = 11 := rfl
    have ht : toString (11 : Nat) = "11" := rfl
    unfold _log_users
    rw [if_neg (by rw [hlen]; omega), hlen, ht, string_append_assoc, string_append_assoc]
    rfl

/-- C8 witness: the short-list case at a singleton and the 11-user case at
concrete names. -/
theorem c8_log_listing_witness :
    _log_users ["a"] = String.intercalate ", " ["a"]
    ∧ _log_users ["a", "b", "c", "d", "e", "f", "g", "h", "i", "j", "k"]
        = String.intercalate ", " ["a", "b", "c", "...", "i", "j", "k"] ++ "等11用户" :=
  ⟨c8_log_listing.1 ["a"] (by decide),
   c8_log_listing.2.2 "a" "b" "c" "d" "e" "f" "g" "h" "i" "j" "k"⟩

/-! Lemmas about the retry loop of `_send_wechat`. -/

theorem sendLoop_length_le (env : Nat → HttpOutcome) :
    ∀ n i d, (sendLoop env n i d).length ≤ n := by
  intro n
  induction n with
  | zero => intro i d; simp [sendLoop]
  | succ n ih =>
    intro i d
    simp only [sendLoop]
    split
    · simp only [List.length_singleton]
      omega
    · simp only [List.length_singleton]
      omega
    · simp only [List.length_cons]
      exact Nat.succ_le_succ (ih (i + 1) _)

/-- A run of the loop with positive fuel starts with the payload it was
entered with. -/
theorem sendLoop_succ_shape (env : Nat → HttpOutcome) (n i : Nat) (d : Json) :
    ∃ t, sendLoop env (n + 1) i d = d :: t := by
  simp only [sendLoop]
  split
  · exact ⟨_, rfl⟩
  · exact ⟨_, rfl⟩
  · exact ⟨_, rfl⟩

theorem lookup_setField (fields : List (String × Json)) (k : String) (v : Json) :
    (setField fields k v).lookup k = some v := by
  induction fields with
  | nil => simp [setField, List.lookup]
  | cons p rest ih =>
    obtain ⟨k', v'⟩ := p
    by_cases h : k' = k
    · simp [setField, h, List.lookup]
    · simp only [setField, beq_iff_eq, h, if_false, List.lookup]
      have hne : (k == k') = false := by simp [Ne.symm h]
      rw [hne]
      exact ih

/-- Consecutive payloads in the loop trace: every attempt after the first is
preceded by a partial failure, and its payload is the previous payload with
the `"touser"` field replaced by the interpreter's retry list. -/
theorem sendLoop_consecutive (env : Nat → HttpOutcome) :
    ∀ n i d j d₁ d₂, (sendLoop env n i d).get? j = some d₁ →
      (sendLoop env n i d).get? (j + 1) = some d₂ →
      ∃ e retrys,
        _post_and_parse (env (i + j)) (some sendDetailParser) = (some e, some retrys)
        ∧ d₂ = d₁.setKey "touser" (.arr retrys) := by
  intro n
  induction n with
  | zero => intro i d j d₁ d₂ h1 h2; simp [sendLoop] at h1
  | succ n ih =>
    intro i d j d₁ d₂ h1 h2
    rcases hp : _post_and_parse (env i) (some sendDetailParser) with ⟨e, r⟩
    cases e with
    | none =>
      simp only [sendLoop, hp] at h2
      simp [List.get?] at h2
    | some e' =>
      cases r with
      | none =>
        simp only [sendLoop, hp] at h2
        simp [List.get?] at h2
      | some retrys =>
        simp only [sendLoop, hp] at h1 h2
        cases j with
        | zero =>
          simp only [List.get?] at h1 h2
          injection h1 with h1
          subst h1
          refine ⟨e', retrys, hp, ?_⟩
          cases n with
          | zero => simp [sendLoop] at h2
          | succ n =>
            obtain ⟨t, ht⟩ :=
              sendLoop_succ_shape env n (i + 1) (d.setKey "touser" (.arr retrys))
            rw [ht] at h2
            simp only [List.get?] at h2
            injection h2 with h2
            exact h2.symm
        | succ j' =>
          simp only [List.get?] at h1 h2
          have hr := ih (i + 1) (d.setKey "touser" (.arr retrys)) j' d₁ d₂ h1 h2
          rwa [show i + 1 + j' = i + (j' + 1) by omega] at hr

/-- C1: the batched sender performs at most `retry_times` post-and-parse
attempts; the loop stops after any attempt whose interpretation reports
success (no error message) or a hard failure (no retry list); every attempt
after the first is preceded by a partial failure and posts the previous
payload with its `"touser"` field replaced by exactly the retry-eligible
subset returned by the interpreter (and setting that field really makes it
that subset); and with `retry_times = 3` against an interpreter that reports
the same single recipient as retry-eligible on every attempt, exactly 3 post
attempts occur (the loop is a total function, so no exception is raised). -/
theorem c1_retry_loop (cfg : Config) (env : Nat → HttpOutcome)
    (users : List String) (message : String) (card : Bool)
    (url btntxt : Option String) (retry_times : Nat) :
    (_send_wechat cfg env users message card url btntxt retry_times).length ≤ retry_times
    ∧ (∀ n i d r, _post_and_parse (env i) (some sendDetailParser) = (none, r) →
        sendLoop env (n + 1) i d = [d])
    ∧ (∀ n i d e, _post_and_parse (env i) (some sendDetailParser) = (some e, none) →
        sendLoop env (n + 1) i d = [d])
    ∧ (∀ j d₁ d₂,
        (_send_wechat cfg env users message card url btntxt retry_times).get? j = some d₁ →
        (_send_wechat cfg env users message card url btntxt retry_times).get? (j + 1)
          = some d₂ →
        ∃ e retrys,
          _post_and_parse (env j) (some sendDetailParser) = (some e, some retrys)
          ∧ d₂ = d₁.setKey "touser" (.arr retrys))
    ∧ (∀ fields v, ((Json.obj fields).setKey "touser" v).getKey "touser" = some v)
    ∧ (_send_wechat cfg (fun _ => .ok respRetryU1) users message card url btntxt 3).length
        = 3 := by
  refine ⟨sendLoop_length_le env retry_times 0 _, ?_, ?_, ?_, ?_, rfl⟩
  · intro n i d r h
    simp only [sendLoop, h]
  · intro n i d e h
    simp only [sendLoop, h]
  · intro j d₁ d₂ h1 h2
    have hr := sendLoop_consecutive env retry_times 0
      (mkPostData cfg users message card url btntxt) j d₁ d₂ h1 h2
    rwa [Nat.zero_add] at hr
  · intro fields v
    simp [Json.setKey, Json.getKey, lookup_setField]

/-- C1 witness: the theorem applied at concrete runs: a success response and a
hard-failure response each stop the loop after one attempt, and in the
always-retry run the second payload is the first with its recipients replaced
by the (identical) retry list. -/
theorem c1_retry_loop_witness :
    (sendLoop (fun _ => .ok (.obj [("status", .num 200)])) 1 0 .null = [.null])
    ∧ (sendLoop (fun _ => .ok (.obj [("status", .num 400),
        ("data", .obj [("errMsg", .str "bad")])])) 1 0 .null = [.null])
    ∧ (∃ e retrys,
        _post_and_parse ((fun _ => HttpOutcome.ok respRetryU1) 0) (some sendDetailParser)
          = (some e, some retrys)
        ∧ mkPostData cfgBatch2 ["u1"] "m" false none none
            = (mkPostData cfgBatch2 ["u1"] "m" false none none).setKey "touser"
                (.arr retrys)) :=
  ⟨(c1_retry_loop cfgBatch2 (fun _ => .ok (.obj [("status", .num 200)]))
      ["u1"] "m" false none none 1).2.1 0 0 .null (some []) rfl,
   (c1_retry_loop cfgBatch2 (fun _ => .ok (.obj [("status", .num 400),
      ("data", .obj [("errMsg", .str "bad")])])) ["u1"] "m" false none none 1).2.2.1
      0 0 .null (.str "bad") rfl,
   (c1_retry_loop cfgBatch2 (fun _ => .ok respRetryU1) ["u1"] "m" false none none 3).2.2.2.1
      0 (mkPostData cfgBatch2 ["u1"] "m" false none none)
      (mkPostData cfgBatch2 ["u1"] "m" false none none) rfl rfl⟩

end Wechat
